import Mathlib

/-!
VedicRecon core: registry update, scanner-output classification, web fingerprint merge.

A shallow embedding of `src/core/probe.go` (`RunRecon`, `UpdateRegistry`) and of the
row guard of `src/core/main.go`.

* The registry file is modelled by the record table that `encoding/csv` reads from it
  and writes back to it (`[][]string`); a row is a list of columns. Failures of
  `os.Open`, `ReadAll`, `os.Create` and `WriteAll` are outside the model.
* Go's slice indexing is modelled with an explicit out-of-range outcome.
* Go strings are modelled by Lean strings and processed through their character lists.
* The scanner process and the two HTTP requests are inputs: the captured text, and for
  each request either a transport error or the three headers `RunRecon` reads.
-/

namespace VedicRecon

/-! ## Registry store -/

/-- One CSV record: the columns of a registry row (`[]string`). -/
abbrev Row := List String

/-- The records of the registry file (`[][]string`), header row included. -/
abbrev Table := List Row

/-- How a call of `UpdateRegistry` ends: `nil`, the `fmt.Errorf` error, or the runtime
panic of an out-of-range index. -/
inductive UpdateOutcome where
  | ok
  | notFound (msg : String)
  | indexPanic
  deriving DecidableEq, Repr

/-- The indexed store `row[c] = v`; `none` is the index-out-of-range panic. -/
def setCol (row : Row) (c : Nat) (v : String) : Option Row :=
  if c < row.length then some (row.set c v) else none

/-- The four stores of the loop body of `UpdateRegistry`, in source order:
`[3] = status`, `[5] = osTech`, `[6] = ports`, `[7] = services`. -/
def writeFields (row : Row) (osTech ports services status : String) : Option Row :=
  (((setCol row 3 status).bind fun r => setCol r 5 osTech).bind
    fun r => setCol r 6 ports).bind fun r => setCol r 7 services

/-- Result of the `for i, row := range records` loop of `UpdateRegistry`. -/
inductive Scan where
  | panic
  | missing
  | hit (records : Table)
  deriving DecidableEq, Repr

/-- The search loop of `UpdateRegistry`: rows are visited in order, `row[0]` is compared
with `id`, the first row that matches is rewritten and the loop breaks. -/
def scanRows (id osTech ports services status : String) : Table → Scan
  | [] => Scan.missing
  | row :: rest =>
    match row[0]? with
    | none => Scan.panic
    | some key =>
      if key = id then
        match writeFields row osTech ports services status with
        | none => Scan.panic
        | some row' => Scan.hit (row' :: rest)
      else
        match scanRows id osTech ports services status rest with
        | Scan.hit rest' => Scan.hit (row :: rest')
        | Scan.missing => Scan.missing
        | Scan.panic => Scan.panic

/-- The arguments of one `UpdateRegistry` call (the path apart). -/
structure Call where
  id : String
  osTech : String
  ports : String
  services : String
  status : String
  deriving DecidableEq, Repr

/-- Progress of one `UpdateRegistry` call: not started, holding its private modified copy
of the records (between `ReadAll` and `os.Create`), or returned. -/
inductive TaskState where
  | idle
  | loaded (records : Table)
  | returned (r : UpdateOutcome)
  deriving DecidableEq, Repr

/-- The error text of `fmt.Errorf("Target ID %s not found in registry", id)`. -/
def notFoundMsg (id : String) : String :=
  "Target ID " ++ id ++ " not found in registry"

/-- Lines 152-177 of `UpdateRegistry` as one atomic step: open, `ReadAll`, close, then the
search loop on the private copy. A call that does not find the id (or panics) ends here. -/
def readStep (stored : Table) (c : Call) : TaskState :=
  match scanRows c.id c.osTech c.ports c.services c.status stored with
  | Scan.hit records => TaskState.loaded records
  | Scan.missing => TaskState.returned (UpdateOutcome.notFound (notFoundMsg c.id))
  | Scan.panic => TaskState.returned UpdateOutcome.indexPanic

/-- Lines 180-192 of `UpdateRegistry` as one atomic step: `os.Create` and `WriteAll` of the
private copy. -/
def writeStep (stored : Table) : TaskState → Table × TaskState
  | TaskState.loaded records => (records, TaskState.returned UpdateOutcome.ok)
  | s => (stored, s)

/-- `UpdateRegistry(path, id, osTech, ports, services, status)` run alone: the outcome and
the table stored at `path` afterwards. -/
def UpdateRegistry (stored : Table) (id osTech ports services status : String) :
    UpdateOutcome × Table :=
  match scanRows id osTech ports services status stored with
  | Scan.hit records => (UpdateOutcome.ok, records)
  | Scan.missing => (UpdateOutcome.notFound (notFoundMsg id), stored)
  | Scan.panic => (UpdateOutcome.indexPanic, stored)

/-- The row guard of `main`: a task is launched for a record unless `len(record) < 3`. -/
def launchesTask (record : Row) : Bool :=
  !(decide (record.length < 3))

/-! ### Two concurrent calls -/

/-- The shared file and the two tasks working on it. -/
structure Sys where
  stored : Table
  t1 : TaskState
  t2 : TaskState
  deriving DecidableEq, Repr

/-- An atomic step of the interleaving: a task's read-table or write-table step. -/
inductive Step where
  | read1
  | write1
  | read2
  | write2
  deriving DecidableEq, Repr

/-- One step of the two-task system. -/
def Sys.step (c1 c2 : Call) (s : Sys) : Step → Sys
  | Step.read1 => { s with t1 := readStep s.stored c1 }
  | Step.read2 => { s with t2 := readStep s.stored c2 }
  | Step.write1 => { s with stored := (writeStep s.stored s.t1).1, t1 := (writeStep s.stored s.t1).2 }
  | Step.write2 => { s with stored := (writeStep s.stored s.t2).1, t2 := (writeStep s.stored s.t2).2 }

/-- Run a schedule from the initial table with both tasks idle. -/
def runSchedule (c1 c2 : Call) (stored : Table) (sched : List Step) : Sys :=
  sched.foldl (Sys.step c1 c2) ⟨stored, TaskState.idle, TaskState.idle⟩

/-! ## Go string primitives used by `RunRecon` -/

/-- The predicate `unicode.IsSpace`, which `strings.Fields` and `strings.TrimSpace` use. -/
def isSpace (c : Char) : Bool :=
  let n := c.toNat
  n = 0x09 || n = 0x0A || n = 0x0B || n = 0x0C || n = 0x0D || n = 0x20 || n = 0x85 ||
  n = 0xA0 || n = 0x1680 || (0x2000 ≤ n && n ≤ 0x200A) || n = 0x2028 || n = 0x2029 ||
  n = 0x202F || n = 0x205F || n = 0x3000

/-- Does `sub` occur as a contiguous block of `l`? -/
def hasInfix (sub : List Char) : List Char → Bool
  | [] => sub.isPrefixOf []
  | c :: cs => sub.isPrefixOf (c :: cs) || hasInfix sub cs

/-- The function `strings.Contains(s, substr)`. -/
def Contains (s substr : String) : Bool :=
  hasInfix substr.data s.data

/-- Splitting a character list at every occurrence of `sep`. -/
def splitChars (sep : Char) : List Char → List (List Char)
  | [] => [[]]
  | c :: cs =>
    if c = sep then [] :: splitChars sep cs
    else
      match splitChars sep cs with
      | [] => [[c]]
      | h :: t => (c :: h) :: t

/-- The function `strings.Split(s, sep)` for a one-character separator (the source only
splits at "\n" and at ":"). -/
def Split (s : String) (sep : Char) : List String :=
  (splitChars sep s.data).map String.mk

/-- Worker of `Fields`: `cur` is the field being read, reversed. -/
def fieldsAux : List Char → List Char → List (List Char)
  | [], cur => if cur.isEmpty then [] else [cur.reverse]
  | c :: cs, cur =>
    if isSpace c then
      if cur.isEmpty then fieldsAux cs [] else cur.reverse :: fieldsAux cs []
    else fieldsAux cs (c :: cur)

/-- The function `strings.Fields(s)`: the maximal runs of non-space characters. -/
def Fields (s : String) : List String :=
  (fieldsAux s.data []).map String.mk

/-- Trimming white space at both ends of a character list. -/
def trimChars (l : List Char) : List Char :=
  ((l.dropWhile isSpace).reverse.dropWhile isSpace).reverse

/-- The function `strings.TrimSpace(s)`. -/
def TrimSpace (s : String) : String :=
  String.mk (trimChars s.data)

/-- The function `strings.Join(elems, sep)`. -/
def Join (elems : List String) (sep : String) : String :=
  sep.intercalate elems

/-- The function `strings.ToLower(s)` on the ASCII letters. Go also lowers non-ASCII
letters; none of them is lowered to a letter of "cloudflare", the only text the result is
searched for. -/
def ToLower (s : String) : String :=
  String.mk (s.data.map Char.toLower)

/-! ## Output classifier (the `DATA EXTRACTION` block of `RunRecon`) -/

/-- The loop variables `ports`, `services` and `osTech`. -/
structure Facts where
  ports : List String
  services : List String
  osTech : String
  deriving DecidableEq, Repr

/-- The condition of the first `if` of the loop body. -/
def isPortLine (line : String) : Bool :=
  Contains line "/tcp" && (Contains line "open" || Contains line "tcpwrapped")

/-- The condition of the second `if` of the loop body. -/
def isOsLine (line : String) : Bool :=
  Contains line "OS details:" || Contains line "Running:"

/-- The first `if` of the loop body: ports and services of one line. -/
def portStep (st : Facts) (line : String) : Facts :=
  if isPortLine line then
    match Fields line with
    | p0 :: p1 :: more =>
      -- len(parts) >= 2
      { st with
        ports := st.ports ++ [p0]
        services :=
          if p1 = "tcpwrapped" then st.services ++ ["tcpwrapped"]
          else
            match more with
            | p2 :: _ => st.services ++ [p2]
            | [] => st.services }
    | _ => st
  else st

/-- The second `if` of the loop body: the OS guess of one line. -/
def osStep (st : Facts) (line : String) : Facts :=
  if isOsLine line then
    match Split line ':' with
    | _ :: p1 :: _ => { st with osTech := TrimSpace p1 }
    | _ => st
  else st

/-- One iteration of `for _, line := range lines`. -/
def classifyLine (st : Facts) (line : String) : Facts :=
  osStep (portStep st line) line

/-- The values of `ports`, `services` and `osTech` before the loop. -/
def initFacts : Facts := ⟨[], [], "DETECTION_FAILED"⟩

/-- The loop over `strings.Split(nmapOutput, "\n")`. -/
def classify (nmapOutput : String) : Facts :=
  (Split nmapOutput '\n').foldl classifyLine initFacts

/-- The value of `foundPorts` after the loop. -/
def foundPorts (f : Facts) : String :=
  if f.ports.length > 0 then Join f.ports "|" else "FILTERED"

/-- The value of `foundServices` after the loop. -/
def foundServices (f : Facts) : String :=
  if f.services.length > 0 then Join f.services "|" else "TBD"

/-! ## Web fingerprint (phases 4 and 5 of `RunRecon`) -/

/-- What `RunRecon` reads of a response: `Header.Get` of three names ("" when absent). -/
structure Response where
  server : String
  cfRay : String
  akamai : String
  deriving DecidableEq, Repr

/-- The three `if`s that assign `wafSignal`, in source order. -/
def wafSignal (resp : Response) : String :=
  let w := ""
  let w := if resp.cfRay ≠ "" then "Cloudflare" else w
  let w := if resp.akamai ≠ "" then "Akamai" else w
  let w := if Contains (ToLower resp.server) "cloudflare" then "Cloudflare" else w
  w

/-- The two updates of `osTech` inside `if webErr == nil && resp != nil`. -/
def mergeOsTech (osTech : String) (resp : Response) : String :=
  let osTech :=
    if resp.server ≠ "" then
      if osTech = "DETECTION_FAILED" then resp.server
      else osTech ++ " (" ++ resp.server ++ ")"
    else osTech
  if wafSignal resp ≠ "" then osTech ++ " [EDGE: " ++ wafSignal resp ++ "]" else osTech

/-- HTTPS first, HTTP only when the HTTPS `client.Get` returned an error; `none` is a
transport error. -/
def probe (https http : Option Response) : Option Response :=
  match https with
  | some r => some r
  | none => http

/-- The `osTech` argument `RunRecon` passes to `UpdateRegistry`. -/
def finalOsTech (nmapOutput : String) (https http : Option Response) : String :=
  match probe https http with
  | some resp => mergeOsTech (classify nmapOutput).osTech resp
  | none => (classify nmapOutput).osTech

/-- The call `UpdateRegistry(registryPath, id, osTech, foundPorts, foundServices, "ACTIVE")`
that ends `RunRecon`. -/
def reconCall (id nmapOutput : String) (https http : Option Response) : Call :=
  { id := id
    osTech := finalOsTech nmapOutput https http
    ports := foundPorts (classify nmapOutput)
    services := foundServices (classify nmapOutput)
    status := "ACTIVE" }

/-! ## Notions the statements use -/

/-- The last line of the scanner text that is an OS-hint line, if there is one. -/
def lastOsLine (nmapOutput : String) : Option String :=
  ((Split nmapOutput '\n').filter isOsLine).getLast?

/-- The whole text that follows the first colon of a line. -/
def afterFirstColon (line : String) : String :=
  String.mk ((line.data.dropWhile fun c => c != ':').drop 1)

/-- The text that follows the first colon of a line, up to the next colon or to the end of
the line when there is no other colon. -/
def afterFirstColonToNext (line : String) : String :=
  String.mk ((afterFirstColon line).data.takeWhile fun c => c != ':')

/-- The bracketed annotation `RunRecon` appends for a response: empty without a signal. -/
def edgeSuffix (resp : Response) : String :=
  if wafSignal resp ≠ "" then " [EDGE: " ++ wafSignal resp ++ "]" else ""

end VedicRecon

/-! ## Registry store: lemmas -/

namespace VedicRecon

theorem writeFields_none_of_short (row : Row) (osTech ports services status : String)
    (h : row.length < 8) :
    writeFields row osTech ports services status = none := by
  unfold writeFields setCol
  by_cases h3 : 3 < row.length
  · by_cases h5 : 5 < row.length
    · by_cases h6 : 6 < row.length
      · have h7 : ¬ 7 < row.length := by omega
        simp [h3, h5, h6, h7]
      · simp [h3, h5, h6]
    · simp [h3, h5]
  · simp [h3]

theorem scanRows_panic_of_short (id osTech ports services status : String) :
    ∀ (t : Table) (i : Nat) (row : Row), t[i]? = some row → row[0]? = some id →
      (∀ j, j < i → ∀ r, t[j]? = some r → r ≠ [] ∧ r[0]? ≠ some id) → row.length < 8 →
      scanRows id osTech ports services status t = Scan.panic
  | [], i, row, ht, _, _, _ => by simp at ht
  | r :: rest, 0, row, ht, hkey, _, hlen => by
    simp at ht
    subst ht
    simp [scanRows, hkey, writeFields_none_of_short _ _ _ _ _ hlen]
  | r :: rest, i + 1, row, ht, hkey, hfirst, hlen => by
    have h0 := hfirst 0 (Nat.succ_pos i) r (by simp)
    have ih := scanRows_panic_of_short id osTech ports services status rest i row
      (by simpa using ht) hkey
      (fun j hj r' hr' => hfirst (j + 1) (by omega) r' (by simpa using hr')) hlen
    cases r with
    | nil => exact absurd rfl h0.1
    | cons k cols =>
      have hk : k ≠ id := by
        intro e
        exact h0.2 (by simp [e])
      simp [scanRows, hk, ih]

theorem scanRows_missing (id osTech ports services status : String) :
    ∀ (t : Table), (∀ r ∈ t, ∃ k, r[0]? = some k ∧ k ≠ id) →
      scanRows id osTech ports services status t = Scan.missing
  | [], _ => rfl
  | r :: rest, h => by
    obtain ⟨k, hk, hne⟩ := h r (by simp)
    have ih := scanRows_missing id osTech ports services status rest
      (fun r' hr' => h r' (by simp [hr']))
    simp [scanRows, hk, hne, ih]

theorem scanRows_missing_only (id osTech ports services status : String) :
    ∀ (t : Table), scanRows id osTech ports services status t = Scan.missing →
      ∀ r ∈ t, r[0]? ≠ some id
  | [], _ => by simp
  | r :: rest, h => by
    unfold scanRows at h
    cases hr : r[0]? with
    | none => simp [hr] at h
    | some k =>
      simp only [hr] at h
      by_cases hk : k = id
      · simp only [hk, if_true] at h
        cases hw : writeFields r osTech ports services status <;> simp [hw] at h
      · simp only [hk, if_false] at h
        cases hs : scanRows id osTech ports services status rest with
        | hit rest' => simp [hs] at h
        | panic => simp [hs] at h
        | missing =>
          have ih := scanRows_missing_only id osTech ports services status rest hs
          intro r' hr'
          rcases List.mem_cons.mp hr' with e | e
          · subst e
            simp [hr, hk]
          · exact ih r' e

end VedicRecon

/-! ## Go string primitives: lemmas -/

namespace VedicRecon

theorem hasInfix_iff (sub : List Char) : ∀ l : List Char, hasInfix sub l = true ↔ sub <:+: l
  | [] => by simp [hasInfix, List.isPrefixOf_iff_prefix]
  | c :: cs => by
    simp [hasInfix, List.isPrefixOf_iff_prefix, List.infix_cons_iff, hasInfix_iff sub cs]

theorem Contains_iff (s substr : String) : Contains s substr = true ↔ substr.data <:+: s.data :=
  hasInfix_iff _ _

theorem Contains_append_mid (a b c : String) : Contains (a ++ b ++ c) b = true := by
  rw [Contains_iff]
  simp only [String.data_append]
  exact List.infix_append _ _ _

theorem mem_of_Contains (s substr : String) (ch : Char) (h : Contains s substr = true)
    (hc : ch ∈ substr.data) : ch ∈ s.data :=
  ((Contains_iff s substr).mp h).subset hc

theorem splitChars_eq (sep : Char) : ∀ l : List Char,
    splitChars sep l = l.takeWhile (fun c => c != sep) ::
      (if sep ∈ l then splitChars sep ((l.dropWhile (fun c => c != sep)).drop 1) else [])
  | [] => by simp [splitChars]
  | c :: cs => by
    by_cases h : c = sep
    · subst h
      simp [splitChars]
    · have ih := splitChars_eq sep cs
      have h' : ¬ sep = c := fun e => h e.symm
      rw [splitChars, if_neg h, ih]
      simp [List.takeWhile_cons, List.dropWhile_cons, h, h']

theorem splitChars_no_sep (sep : Char) : ∀ l : List Char, sep ∉ l → splitChars sep l = [l]
  | [], _ => rfl
  | c :: cs, h => by
    have hc : ¬ c = sep := fun e => h (by simp [e])
    have ih := splitChars_no_sep sep cs (fun m => h (by simp [m]))
    simp [splitChars, hc, ih]

theorem splitChars_mem_no_sep (sep : Char) : ∀ (l x : List Char), x ∈ splitChars sep l → sep ∉ x
  | [], x, hx => by
    simp [splitChars] at hx
    simp [hx]
  | c :: cs, x, hx => by
    by_cases h : c = sep
    · rw [splitChars, if_pos h] at hx
      rcases List.mem_cons.mp hx with e | e
      · simp [e]
      · exact splitChars_mem_no_sep sep cs x e
    · rw [splitChars, if_neg h] at hx
      cases hs : splitChars sep cs with
      | nil =>
        rw [hs] at hx
        simp at hx
        subst hx
        simpa using fun e => h e.symm
      | cons y ys =>
        rw [hs] at hx
        have hy : sep ∉ y := splitChars_mem_no_sep sep cs y (by simp [hs])
        rcases List.mem_cons.mp hx with e | e
        · subst e
          intro m
          rcases List.mem_cons.mp m with e' | e'
          · exact h e'.symm
          · exact hy e'
        · exact splitChars_mem_no_sep sep cs x (by simp [hs, e])

theorem Split_of_no_sep (s : String) (sep : Char) (h : sep ∉ s.data) : Split s sep = [s] := by
  simp [Split, splitChars_no_sep sep s.data h]

theorem Split_mem_no_sep (s x : String) (sep : Char) (h : x ∈ Split s sep) : sep ∉ x.data := by
  simp only [Split, List.mem_map] at h
  obtain ⟨y, hy, rfl⟩ := h
  exact splitChars_mem_no_sep sep s.data y hy

/-- At a separator the split starts with the text before it, then the text up to the next
separator (or the end). -/
theorem Split_of_mem (s : String) (sep : Char) (h : sep ∈ s.data) :
    ∃ more, Split s sep = String.mk (s.data.takeWhile (fun c => c != sep)) ::
      String.mk ((((s.data.dropWhile (fun c => c != sep)).drop 1)).takeWhile (fun c => c != sep))
        :: more := by
  unfold Split
  rw [splitChars_eq sep s.data, if_pos h,
    splitChars_eq sep ((s.data.dropWhile (fun c => c != sep)).drop 1)]
  exact ⟨_, by simp only [List.map_cons]; rfl⟩

end VedicRecon

/-! ## Output classifier: lemmas -/

namespace VedicRecon

theorem portStep_osTech (st : Facts) (line : String) : (portStep st line).osTech = st.osTech := by
  unfold portStep
  split
  · split <;> rfl
  · rfl

theorem portStep_of_not_portLine (st : Facts) (line : String) (h : isPortLine line = false) :
    portStep st line = st := by
  simp [portStep, h]

theorem osStep_ports (st : Facts) (line : String) :
    (osStep st line).ports = st.ports ∧ (osStep st line).services = st.services := by
  unfold osStep
  split
  · split <;> exact ⟨rfl, rfl⟩
  · exact ⟨rfl, rfl⟩

theorem osStep_of_not_osLine (st : Facts) (line : String) (h : isOsLine line = false) :
    osStep st line = st := by
  simp [osStep, h]

theorem colon_mem_of_isOsLine (line : String) (h : isOsLine line = true) : ':' ∈ line.data := by
  simp only [isOsLine, Bool.or_eq_true] at h
  rcases h with h | h
  · exact mem_of_Contains line "OS details:" ':' h (by decide)
  · exact mem_of_Contains line "Running:" ':' h (by decide)

/-- On an OS-hint line the loop body assigns `osTech`, whatever it held before. -/
theorem classifyLine_osTech_of_isOsLine (st : Facts) (line : String) (h : isOsLine line = true) :
    (classifyLine st line).osTech = TrimSpace (afterFirstColonToNext line) := by
  obtain ⟨more, hs⟩ := Split_of_mem line ':' (colon_mem_of_isOsLine line h)
  simp [classifyLine, osStep, h, hs, afterFirstColonToNext, afterFirstColon]

theorem classifyLine_osTech_of_not_osLine (st : Facts) (line : String)
    (h : isOsLine line = false) : (classifyLine st line).osTech = st.osTech := by
  simp [classifyLine, osStep_of_not_osLine _ _ h, portStep_osTech]

theorem classifyLine_ports_of_not_portLine (st : Facts) (line : String)
    (h : isPortLine line = false) :
    (classifyLine st line).ports = st.ports ∧ (classifyLine st line).services = st.services := by
  have := osStep_ports (portStep st line) line
  simpa [classifyLine, portStep_of_not_portLine _ _ h] using this

theorem foldl_ports_of_no_portLine : ∀ (lines : List String) (st : Facts),
    (∀ l ∈ lines, isPortLine l = false) →
    (lines.foldl classifyLine st).ports = st.ports ∧
      (lines.foldl classifyLine st).services = st.services
  | [], _, _ => ⟨rfl, rfl⟩
  | l :: ls, st, h => by
    have ih := foldl_ports_of_no_portLine ls (classifyLine st l) (fun x hx => h x (by simp [hx]))
    have h1 := classifyLine_ports_of_not_portLine st l (h l (by simp))
    simp only [List.foldl_cons]
    exact ⟨ih.1.trans h1.1, ih.2.trans h1.2⟩

theorem foldl_osTech_of_no_osLine : ∀ (lines : List String) (st : Facts),
    (∀ l ∈ lines, isOsLine l = false) → (lines.foldl classifyLine st).osTech = st.osTech
  | [], _, _ => rfl
  | l :: ls, st, h => by
    have ih := foldl_osTech_of_no_osLine ls (classifyLine st l) (fun x hx => h x (by simp [hx]))
    simp only [List.foldl_cons]
    exact ih.trans (classifyLine_osTech_of_not_osLine st l (h l (by simp)))

theorem foldl_osTech_of_last : ∀ (lines : List String) (st : Facts) (line : String),
    (lines.filter isOsLine).getLast? = some line →
    (lines.foldl classifyLine st).osTech = TrimSpace (afterFirstColonToNext line)
  | [], _, _, h => by simp at h
  | l :: ls, st, line, h => by
    simp only [List.foldl_cons]
    cases hf : ls.filter isOsLine with
    | nil =>
      have hno : ∀ x ∈ ls, isOsLine x = false := by
        intro x hx
        by_contra hc
        have : x ∈ ls.filter isOsLine := List.mem_filter.mpr ⟨hx, by simpa using hc⟩
        simp [hf] at this
      by_cases hl : isOsLine l = true
      · simp [List.filter_cons, hl, hf] at h
        subst h
        rw [foldl_osTech_of_no_osLine ls _ hno]
        exact classifyLine_osTech_of_isOsLine st l hl
      · simp [List.filter_cons, hl, hf] at h
    | cons y ys =>
      have h' : (ls.filter isOsLine).getLast? = some line := by
        by_cases hl : isOsLine l = true
        · simpa [List.filter_cons, hl, hf, List.getLast?_cons_cons] using h
        · simpa [List.filter_cons, hl, hf] using h
      exact foldl_osTech_of_last ls _ line h'

theorem classify_single_line (line : String) (h : '\n' ∉ line.data) :
    classify line = classifyLine initFacts line := by
  simp [classify, Split_of_no_sep line '\n' h]

end VedicRecon

/-! ## Registry store: claims -/

namespace VedicRecon

theorem UpdateRegistry_of_missing (t : Table) (id osTech ports services status : String)
    (h : scanRows id osTech ports services status t = Scan.missing) :
    UpdateRegistry t id osTech ports services status
      = (UpdateOutcome.notFound (notFoundMsg id), t) := by
  simp [UpdateRegistry, h]

theorem UpdateRegistry_notFound_inv (t : Table) (id osTech ports services status msg : String)
    (h : (UpdateRegistry t id osTech ports services status).1 = UpdateOutcome.notFound msg) :
    scanRows id osTech ports services status t = Scan.missing := by
  cases hs : scanRows id osTech ports services status t <;>
    simp [UpdateRegistry, hs] at h ⊢

/-- A call run alone in the two-step model (read, then write) ends as `UpdateRegistry`. -/
theorem runSchedule_alone (c1 c2 : Call) (t : Table) :
    (runSchedule c1 c2 t [Step.read1, Step.write1]).stored
        = (UpdateRegistry t c1.id c1.osTech c1.ports c1.services c1.status).2 ∧
    (runSchedule c1 c2 t [Step.read1, Step.write1]).t1
        = TaskState.returned (UpdateRegistry t c1.id c1.osTech c1.ports c1.services c1.status).1 := by
  cases hs : scanRows c1.id c1.osTech c1.ports c1.services c1.status t <;>
    simp [runSchedule, Sys.step, readStep, writeStep, UpdateRegistry, hs]

/-- When both tasks read before either writes, the table left in the file is the private
copy of the task that writes last; the other task's write is overwritten. -/
theorem runSchedule_reads_first (c1 c2 : Call) (t r2 : Table)
    (h2 : scanRows c2.id c2.osTech c2.ports c2.services c2.status t = Scan.hit r2) :
    (runSchedule c1 c2 t [Step.read1, Step.read2, Step.write1, Step.write2]).stored = r2 := by
  simp [runSchedule, Sys.step, readStep, writeStep, h2]

/-- A first matching row with fewer than eight columns ends the call in the
index-out-of-range panic, before anything is written. -/
theorem UpdateRegistry_panics_of_short_row (t : Table) (id osTech ports services status : String)
    (i : Nat) (row : Row) (hrow : t[i]? = some row) (hkey : row[0]? = some id)
    (hfirst : ∀ j, j < i → ∀ r, t[j]? = some r → r ≠ [] ∧ r[0]? ≠ some id)
    (hcols : row.length < 8) :
    UpdateRegistry t id osTech ports services status = (UpdateOutcome.indexPanic, t) := by
  simp [UpdateRegistry,
    scanRows_panic_of_short id osTech ports services status t i row hrow hkey hfirst hcols]

/-- C2: when every row has a key column and none equals `id`, `UpdateRegistry` returns the
error "Target ID <id> not found in registry", it returns from the read phase (the write
phase is never entered) and the stored table is unchanged; and whenever it returns a
not-found error, no row has the key `id`. -/
theorem UpdateRegistry_notFound (t : Table) (id osTech ports services status : String) :
    ((∀ r ∈ t, ∃ k, r[0]? = some k ∧ k ≠ id) →
      UpdateRegistry t id osTech ports services status
        = (UpdateOutcome.notFound ("Target ID " ++ id ++ " not found in registry"), t) ∧
      readStep t ⟨id, osTech, ports, services, status⟩
        = TaskState.returned
            (UpdateOutcome.notFound ("Target ID " ++ id ++ " not found in registry"))) ∧
    (∀ msg, (UpdateRegistry t id osTech ports services status).1 = UpdateOutcome.notFound msg →
      ∀ r ∈ t, r[0]? ≠ some id) := by
  constructor
  · intro h
    have hs := scanRows_missing id osTech ports services status t h
    exact ⟨UpdateRegistry_of_missing _ _ _ _ _ _ hs, by simp [readStep, hs, notFoundMsg]⟩
  · intro msg h
    exact scanRows_missing_only id osTech ports services status t
      (UpdateRegistry_notFound_inv _ _ _ _ _ _ _ h)

/-- Witness of `UpdateRegistry_notFound`: the id `ghost-1` against a registry without it. -/
theorem UpdateRegistry_notFound_witness :
    (∀ r ∈ ([["Target_ID", "Label", "IP", "Scope", "Res", "OS", "Ports", "Services"],
             ["T1", "web", "10.0.0.1", "UNSET", "r1", "TBD", "TBD", "TBD"]] : Table),
        ∃ k, r[0]? = some k ∧ k ≠ "ghost-1") ∧
    UpdateRegistry [["Target_ID", "Label", "IP", "Scope", "Res", "OS", "Ports", "Services"],
        ["T1", "web", "10.0.0.1", "UNSET", "r1", "TBD", "TBD", "TBD"]]
        "ghost-1" "Linux" "22/tcp" "ssh" "ACTIVE"
      = (UpdateOutcome.notFound "Target ID ghost-1 not found in registry",
         [["Target_ID", "Label", "IP", "Scope", "Res", "OS", "Ports", "Services"],
          ["T1", "web", "10.0.0.1", "UNSET", "r1", "TBD", "TBD", "TBD"]]) :=
  have h : ∀ r ∈ ([["Target_ID", "Label", "IP", "Scope", "Res", "OS", "Ports", "Services"],
             ["T1", "web", "10.0.0.1", "UNSET", "r1", "TBD", "TBD", "TBD"]] : Table),
        ∃ k, r[0]? = some k ∧ k ≠ "ghost-1" := by
    intro r hr
    simp only [List.mem_cons, List.mem_singleton, List.not_mem_nil, or_false] at hr
    rcases hr with e | e <;> subst e
    · exact ⟨"Target_ID", rfl, by decide⟩
    · exact ⟨"T1", rfl, by decide⟩
  ⟨h, ((UpdateRegistry_notFound _ "ghost-1" "Linux" "22/tcp" "ssh" "ACTIVE").1 h).1⟩

/-- C10 (the code at the failing input): every row of this table has three columns, `main`
launches a task for each of them, `T1` is the key of the second row, and `UpdateRegistry`
ends in the index-out-of-range panic without writing. -/
theorem UpdateRegistry_three_columns_panics :
    (∀ r ∈ ([["Target_ID", "Label", "IP"], ["T1", "web", "10.0.0.1"]] : Table),
      r.length = 3 ∧ launchesTask r = true) ∧
    (["T1", "web", "10.0.0.1"] : Row)[0]? = some "T1" ∧
    UpdateRegistry [["Target_ID", "Label", "IP"], ["T1", "web", "10.0.0.1"]]
        "T1" "Linux" "22/tcp" "ssh" "ACTIVE"
      = (UpdateOutcome.indexPanic, [["Target_ID", "Label", "IP"], ["T1", "web", "10.0.0.1"]]) := by
  decide

/-- C3 (the code at the failing interleaving): tasks for `T1` and `T2` both read the table
before either writes. Both return `nil`, yet the stored table is the one task 2 wrote from
its private copy: row `T1` is back to its old values. Run one after the other, the two calls
leave both updates in the table. -/
theorem concurrent_updates_lose_a_row :
    (runSchedule ⟨"T1", "Linux", "22/tcp", "ssh", "ACTIVE"⟩
        ⟨"T2", "Windows", "445/tcp", "smb", "ACTIVE"⟩
        [["Target_ID", "Label", "IP", "Scope", "Res", "OS", "Ports", "Services"],
         ["T1", "web", "10.0.0.1", "UNSET", "r1", "TBD", "TBD", "TBD"],
         ["T2", "db", "10.0.0.2", "UNSET", "r2", "TBD", "TBD", "TBD"]]
        [Step.read1, Step.read2, Step.write1, Step.write2])
      = ⟨[["Target_ID", "Label", "IP", "Scope", "Res", "OS", "Ports", "Services"],
          ["T1", "web", "10.0.0.1", "UNSET", "r1", "TBD", "TBD", "TBD"],
          ["T2", "db", "10.0.0.2", "ACTIVE", "r2", "Windows", "445/tcp", "smb"]],
         TaskState.returned UpdateOutcome.ok, TaskState.returned UpdateOutcome.ok⟩ ∧
    (runSchedule ⟨"T1", "Linux", "22/tcp", "ssh", "ACTIVE"⟩
        ⟨"T2", "Windows", "445/tcp", "smb", "ACTIVE"⟩
        [["Target_ID", "Label", "IP", "Scope", "Res", "OS", "Ports", "Services"],
         ["T1", "web", "10.0.0.1", "UNSET", "r1", "TBD", "TBD", "TBD"],
         ["T2", "db", "10.0.0.2", "UNSET", "r2", "TBD", "TBD", "TBD"]]
        [Step.read1, Step.write1, Step.read2, Step.write2]).stored
      = [["Target_ID", "Label", "IP", "Scope", "Res", "OS", "Ports", "Services"],
         ["T1", "web", "10.0.0.1", "ACTIVE", "r1", "Linux", "22/tcp", "ssh"],
         ["T2", "db", "10.0.0.2", "ACTIVE", "r2", "Windows", "445/tcp", "smb"]] := by
  decide

end VedicRecon

/-! ## Output classifier and web fingerprint: claims -/

namespace VedicRecon

/-- C4 (the code at the failing input): the line "80/tcp open" yields a port and no service
entry, so the classifier ends with two ports and one service, and the service at index 0
is the one of the port at index 1. -/
theorem classify_services_shorter_than_ports :
    classify "80/tcp open\n443/tcp open https"
      = ⟨["80/tcp", "443/tcp"], ["https"], "DETECTION_FAILED"⟩ ∧
    (classify "80/tcp open\n443/tcp open https").ports.length = 2 ∧
    (classify "80/tcp open\n443/tcp open https").services.length = 1 ∧
    foundPorts (classify "80/tcp open\n443/tcp open https") = "80/tcp|443/tcp" ∧
    foundServices (classify "80/tcp open\n443/tcp open https") = "https" := by
  decide

/-- C5: the signal `RunRecon` computes is "Cloudflare" when the lowered `Server` header
contains "cloudflare", otherwise "Akamai" when `X-Akamai-Transformed` is non-empty,
otherwise "Cloudflare" when `CF-RAY` is non-empty, otherwise empty (absent). So a later
rule overrides an earlier one: Akamai wins over `CF-RAY`, and a `Server: CloudFlare-nginx`
header wins over Akamai. -/
theorem wafSignal_last_matching_rule (resp : Response) :
    wafSignal resp =
      (if Contains (ToLower resp.server) "cloudflare" = true then "Cloudflare"
       else if resp.akamai ≠ "" then "Akamai"
       else if resp.cfRay ≠ "" then "Cloudflare"
       else "") ∧
    wafSignal ⟨"nginx", "8a1f-FRA", "9 / 9 / a23-1.deploy"⟩ = "Akamai" ∧
    wafSignal ⟨"CloudFlare-nginx", "", "9 / 9 / a23-1.deploy"⟩ = "Cloudflare" ∧
    wafSignal ⟨"nginx", "", ""⟩ = "" := by
  refine ⟨?_, by decide, by decide, by decide⟩
  unfold wafSignal
  by_cases hc : Contains (ToLower resp.server) "cloudflare" = true
  · simp [hc]
  · by_cases ha : resp.akamai = ""
    · simp [hc, ha]
    · simp [hc, ha]

/-- C6 (counterexample): the scanner text has no OS-hint line, HTTPS fails and HTTP answers
with `Server: nginx`; the OS/tech string is "nginx" and does not contain "(nginx)". -/
theorem finalOsTech_not_parenthesized :
    finalOsTech "PORT STATE SERVICE\n80/tcp open http\n" none (some ⟨"nginx", "", ""⟩) = "nginx" ∧
    Contains (finalOsTech "PORT STATE SERVICE\n80/tcp open http\n" none (some ⟨"nginx", "", ""⟩))
      "(nginx)" = false := by
  decide

/-- C6 (as amended): HTTPS fails and HTTP answers with a non-empty `Server` header `s`. When
the classified OS hint is not "DETECTION_FAILED", the OS/tech string is the hint followed
by " (s)" and the edge annotation, so it contains "(s)"; when the hint is
"DETECTION_FAILED", the string is `s` itself followed by the edge annotation. -/
theorem finalOsTech_http_fallback (nmapOutput s cfRay akamai : String) (hs : s ≠ "") :
    ((classify nmapOutput).osTech ≠ "DETECTION_FAILED" →
      finalOsTech nmapOutput none (some ⟨s, cfRay, akamai⟩)
        = (classify nmapOutput).osTech ++ " (" ++ s ++ ")" ++ edgeSuffix ⟨s, cfRay, akamai⟩ ∧
      Contains (finalOsTech nmapOutput none (some ⟨s, cfRay, akamai⟩)) ("(" ++ s ++ ")") = true) ∧
    ((classify nmapOutput).osTech = "DETECTION_FAILED" →
      finalOsTech nmapOutput none (some ⟨s, cfRay, akamai⟩) = s ++ edgeSuffix ⟨s, cfRay, akamai⟩) := by
  constructor
  · intro hne
    have heq : finalOsTech nmapOutput none (some ⟨s, cfRay, akamai⟩)
        = (classify nmapOutput).osTech ++ " (" ++ s ++ ")" ++ edgeSuffix ⟨s, cfRay, akamai⟩ := by
      simp only [finalOsTech, probe, mergeOsTech, edgeSuffix, hs, hne, ne_eq, not_false_eq_true,
        if_true, if_false]
      by_cases hw : wafSignal ⟨s, cfRay, akamai⟩ = ""
      · simp only [hw, not_true_eq_false, if_false, String.append_empty]
      · simp only [hw, not_false_eq_true, if_true, String.append_assoc]
    refine ⟨heq, ?_⟩
    rw [heq]
    have := Contains_append_mid ((classify nmapOutput).osTech ++ " ") ("(" ++ s ++ ")")
      (edgeSuffix ⟨s, cfRay, akamai⟩)
    simpa [String.append_assoc] using this
  · intro he
    simp only [finalOsTech, probe, mergeOsTech, edgeSuffix, hs, he, ne_eq, not_false_eq_true,
      if_true]
    by_cases hw : wafSignal ⟨s, cfRay, akamai⟩ = ""
    · simp only [hw, not_true_eq_false, if_false, String.append_empty]
    · simp only [hw, not_false_eq_true, if_true, String.append_assoc]

/-- Witness of `finalOsTech_http_fallback`: `Server: nginx` with the OS hint "Linux 3.2",
and with no OS hint at all. -/
theorem finalOsTech_http_fallback_witness :
    (finalOsTech "OS details: Linux 3.2" none (some ⟨"nginx", "", ""⟩)
        = (classify "OS details: Linux 3.2").osTech ++ " (" ++ "nginx" ++ ")"
            ++ edgeSuffix ⟨"nginx", "", ""⟩ ∧
      Contains (finalOsTech "OS details: Linux 3.2" none (some ⟨"nginx", "", ""⟩))
        ("(" ++ "nginx" ++ ")") = true) ∧
    finalOsTech "80/tcp open http" none (some ⟨"nginx", "", ""⟩)
      = "nginx" ++ edgeSuffix ⟨"nginx", "", ""⟩ :=
  ⟨(finalOsTech_http_fallback "OS details: Linux 3.2" "nginx" "" "" (by decide)).1 (by decide),
   (finalOsTech_http_fallback "80/tcp open http" "nginx" "" "" (by decide)).2 (by decide)⟩

/-- C7: when `line` is the last OS-hint line of the scanner text, the classified OS hint
equals the hint obtained by classifying `line` by itself, whatever OS-hint lines precede
it; and "OS details: A" followed by "Running: B" classifies to "B". -/
theorem classify_osTech_last_line_wins (nmapOutput line : String)
    (h : lastOsLine nmapOutput = some line) :
    (classify nmapOutput).osTech = (classify line).osTech ∧
    (classify "OS details: A\nRunning: B").osTech = "B" := by
  refine ⟨?_, by decide⟩
  have hmem : line ∈ (Split nmapOutput '\n').filter isOsLine := List.mem_of_getLast?_eq_some h
  obtain ⟨hin, hos⟩ := List.mem_filter.mp hmem
  rw [classify_single_line line (Split_mem_no_sep nmapOutput line '\n' hin),
    classifyLine_osTech_of_isOsLine initFacts line hos]
  exact foldl_osTech_of_last _ initFacts line h

/-- Witness of `classify_osTech_last_line_wins`: three lines, two of them OS-hint lines. -/
theorem classify_osTech_last_line_wins_witness :
    lastOsLine "OS details: A\n22/tcp open ssh\nRunning: B" = some "Running: B" ∧
    (classify "OS details: A\n22/tcp open ssh\nRunning: B").osTech
      = (classify "Running: B").osTech ∧
    (classify "OS details: A\nRunning: B").osTech = "B" :=
  ⟨by decide,
   classify_osTech_last_line_wins "OS details: A\n22/tcp open ssh\nRunning: B" "Running: B"
    (by decide)⟩

/-- C8 (the code at the failing input): on this OS-hint line, which has a second colon, the
loop body takes `parts[1]` of the split at ":", so the hint is cut before the second colon;
the whole trimmed text after the first colon is longer. -/
theorem osTech_stops_at_second_colon :
    isOsLine "OS details: Linux 3.2 - 4.9 (kernel: generic)" = true ∧
    (classifyLine initFacts "OS details: Linux 3.2 - 4.9 (kernel: generic)").osTech
      = "Linux 3.2 - 4.9 (kernel" ∧
    TrimSpace (afterFirstColon "OS details: Linux 3.2 - 4.9 (kernel: generic)")
      = "Linux 3.2 - 4.9 (kernel: generic)" ∧
    (classifyLine initFacts "OS details: Linux 3.2 - 4.9 (kernel: generic)").osTech
      ≠ TrimSpace (afterFirstColon "OS details: Linux 3.2 - 4.9 (kernel: generic)") := by
  decide

/-- On an OS-hint line whose text after the first colon has no other colon, the loop body
sets `osTech` to the whole trimmed text after the first colon. -/
theorem osTech_of_single_colon_line (st : Facts) (line : String) (h : isOsLine line = true)
    (hno : ':' ∉ (afterFirstColon line).data) :
    (classifyLine st line).osTech = TrimSpace (afterFirstColon line) := by
  rw [classifyLine_osTech_of_isOsLine st line h]
  have : afterFirstColonToNext line = afterFirstColon line := by
    unfold afterFirstColonToNext
    have ht : (afterFirstColon line).data.takeWhile (fun c => c != ':')
        = (afterFirstColon line).data := by
      rw [List.takeWhile_eq_self_iff]
      intro c hc
      simpa using fun e : c = ':' => hno (e ▸ hc)
    rw [ht]
  rw [this]

/-- C9: a scanner text without an open-port line classifies to the ports value "FILTERED"
and the services value "TBD"; a scanner text without an OS-hint line classifies to the OS
hint "DETECTION_FAILED". -/
theorem classify_sentinels (nmapOutput : String) :
    ((∀ line ∈ Split nmapOutput '\n', isPortLine line = false) →
      foundPorts (classify nmapOutput) = "FILTERED" ∧
      foundServices (classify nmapOutput) = "TBD") ∧
    ((∀ line ∈ Split nmapOutput '\n', isOsLine line = false) →
      (classify nmapOutput).osTech = "DETECTION_FAILED") := by
  constructor
  · intro h
    obtain ⟨hp, hs⟩ := foldl_ports_of_no_portLine (Split nmapOutput '\n') initFacts h
    have hp' : (classify nmapOutput).ports = [] := hp
    have hs' : (classify nmapOutput).services = [] := hs
    simp [foundPorts, foundServices, hp', hs']
  · intro h
    exact foldl_osTech_of_no_osLine (Split nmapOutput '\n') initFacts h

/-- Witness of `classify_sentinels`: a host that is down has neither kind of line. -/
theorem classify_sentinels_witness :
    (foundPorts (classify "Note: Host seems down.\nNmap done") = "FILTERED" ∧
      foundServices (classify "Note: Host seems down.\nNmap done") = "TBD") ∧
    (classify "Note: Host seems down.\nNmap done").osTech = "DETECTION_FAILED" :=
  ⟨(classify_sentinels "Note: Host seems down.\nNmap done").1 (by decide),
   (classify_sentinels "Note: Host seems down.\nNmap done").2 (by decide)⟩

end VedicRecon
